import Mathlib

/-!
Verification of the plugin session engine of `bin/plugin-client.py`:
the message store (`MessageHistory`), the lifecycle / send path of
`PluginDebuggerApp`, and the stdout read loop.  Messages are modelled by
the three keys the program inspects (`id`, `method`, `params`) plus an
opaque remainder; Python dicts holding pending requests are modelled as
insertion-ordered association lists; wall-clock instants are rationals.
-/

/-- A message document.  The program only ever inspects the keys `id`,
`method` and `params`; every other key/value pair is carried opaquely in
`rest` (dict copies preserve it, nothing reads it). -/
structure Message where
  id : Option Int := none
  method : Option String := none
  params : Option String := none
  rest : List (String × String) := []
deriving DecidableEq, Repr

/-- Direction tag of a history entry (`entry["type"]`). -/
inductive MsgDir where
  | sent
  | received
deriving DecidableEq, Repr

/-- One element of `MessageHistory.messages`.  `formatted_time` is a pure
display rendering of `timestamp` and is not modelled separately.
`response_time` is `none` for sent entries (the Python dict has no such
key there) and for received entries with no matching pending id. -/
structure HistoryEntry where
  dir : MsgDir
  message : Message
  timestamp : ℚ
  response_time : Option ℚ
deriving DecidableEq, Repr

/-- Python-dict assignment `d[k] = v` on an insertion-ordered
association list: overwrite in place when the key exists, else append. -/
def dictSet (l : List (Int × ℚ)) (k : Int) (v : ℚ) : List (Int × ℚ) :=
  if l.any (fun p => p.1 = k) then
    l.map (fun p => if p.1 = k then (k, v) else p)
  else
    l ++ [(k, v)]

/-- Python-dict lookup `d[k]` / `k in d`. -/
def dictLookup (l : List (Int × ℚ)) (k : Int) : Option ℚ :=
  (l.find? (fun p => p.1 = k)).map Prod.snd

/-- Python-dict `d.pop(k)`: remove the entry with key `k`. -/
def dictPop (l : List (Int × ℚ)) (k : Int) : List (Int × ℚ) :=
  l.eraseP (fun p => p.1 = k)

/-- The `MessageHistory` class: append-only history, pending-request
table (id → send timestamp) and the next-request-id counter. -/
structure MessageHistory where
  messages : List HistoryEntry
  pending_requests : List (Int × ℚ)
  next_request_id : Int
deriving DecidableEq, Repr

/-- `MessageHistory.__init__`: empty history, empty pending table,
counter at 1. -/
def MessageHistory.init : MessageHistory :=
  { messages := [], pending_requests := [], next_request_id := 1 }

/-- `MessageHistory.add_sent_message`: append a `sent` entry stamped
`now`; when the message carries an `id`, record `id → now` in the
pending table (overwriting any same-id entry, as Python dict assignment
does). -/
def MessageHistory.add_sent_message (h : MessageHistory) (m : Message) (now : ℚ) :
    MessageHistory :=
  let pending :=
    match m.id with
    | some i => dictSet h.pending_requests i now
    | none => h.pending_requests
  { h with
    messages := h.messages ++ [⟨MsgDir.sent, m, now, none⟩]
    pending_requests := pending }

/-- `MessageHistory.add_received_message`: append a `received` entry;
when the message carries an `id` present in the pending table, pop that
entry and set `response_time = (now - send_time) * 1000`, else leave
the table alone and set `response_time` to `None`. -/
def MessageHistory.add_received_message (h : MessageHistory) (m : Message) (now : ℚ) :
    MessageHistory :=
  let hit : Option ℚ :=
    match m.id with
    | some i => dictLookup h.pending_requests i
    | none => none
  let response_time : Option ℚ := hit.map (fun t => (now - t) * 1000)
  let pending :=
    match m.id with
    | some i => if (dictLookup h.pending_requests i).isSome then
        dictPop h.pending_requests i
      else h.pending_requests
    | none => h.pending_requests
  { h with
    messages := h.messages ++ [⟨MsgDir.received, m, now, response_time⟩]
    pending_requests := pending }

/-- `MessageHistory.get_next_request_id`: return the counter and
post-increment it. -/
def MessageHistory.get_next_request_id (h : MessageHistory) : Int × MessageHistory :=
  (h.next_request_id, { h with next_request_id := h.next_request_id + 1 })

/-- The condition tested for each entry in `get_recent_searches`:
`entry["type"] == "sent" and entry["message"].get("method") == "search"
and "params" in entry["message"]`; when it holds, the collected value is
`entry["message"]["params"]`. -/
def entryQuery (e : HistoryEntry) : Option String :=
  if e.dir = MsgDir.sent ∧ e.message.method = some "search" then
    e.message.params
  else none

/-- The loop body of `get_recent_searches` over the (already reversed)
history: skip non-matching entries and duplicates, append fresh values,
and stop as soon as the accumulator has reached `limit` elements.  Note
the length test happens after the append, exactly as in the source. -/
def collectSearches : List HistoryEntry → List String → Nat → List String
  | [], acc, _ => acc
  | e :: es, acc, limit =>
    match entryQuery e with
    | none => collectSearches es acc limit
    | some q =>
      if q ∈ acc then collectSearches es acc limit
      else
        let acc1 := acc ++ [q]
        if acc1.length ≥ limit then acc1
        else collectSearches es acc1 limit

/-- `MessageHistory.get_recent_searches`: scan history newest-first,
collecting up to `limit` distinct search queries. -/
def MessageHistory.get_recent_searches (h : MessageHistory) (limit : Nat) : List String :=
  collectSearches h.messages.reverse [] limit

/-- `MessageHistory.has_pending_requests`: `len(self.pending_requests) > 0`. -/
def MessageHistory.has_pending_requests (h : MessageHistory) : Bool :=
  decide (0 < h.pending_requests.length)

/-- `MessageHistory.get_pending_request_ids`: `list(self.pending_requests.keys())`. -/
def MessageHistory.get_pending_request_ids (h : MessageHistory) : List Int :=
  h.pending_requests.map Prod.fst

/-- The `plugin_status` values assigned anywhere in the program. -/
inductive PluginStatus where
  | Stopped
  | Running
  | Disconnected
  | Terminated
  | Crashed
  | Failed
deriving DecidableEq, Repr

/-- The session state owned by `PluginDebuggerApp`: lifecycle status,
whether `plugin_process` is a live handle (not `None`), the message
store, and the last sent/received documents.  Widgets and logs are
display-only and not modelled. -/
structure AppState where
  plugin_status : PluginStatus
  plugin_process : Bool
  message_history : MessageHistory
  last_sent_message : Option Message
  last_received_message : Option Message
deriving DecidableEq, Repr

/-- The status list tested by the guard in `_send_message`
(line 525); note it does not include `Stopped`. -/
def sendGuardStates : List PluginStatus :=
  [PluginStatus.Disconnected, PluginStatus.Terminated,
   PluginStatus.Crashed, PluginStatus.Failed]

/-- `_update_status_display`: renders the status panel.  Its only state
effect is that the `Next Request ID` label is produced by calling the
allocating `get_next_request_id()`, so the counter is incremented; the
returned `Int` is the value the label displays. -/
def PluginDebuggerApp.updateStatusDisplay (s : AppState) : AppState × Int :=
  let (rid, h1) := s.message_history.get_next_request_id
  ({ s with message_history := h1 }, rid)

/-- Outcome of the `stdin.send` call, which is environmental: the write
succeeds, raises a broken-stream condition (`BrokenResourceError` /
`EndOfStream`), or raises some other exception. -/
inductive WriteOutcome where
  | ok
  | brokenStream
  | otherError
deriving DecidableEq, Repr

/-- Which branch of `_send_message` ran (each branch logs a distinct
message). -/
inductive SendResult where
  | noProcess
  | sessionInactive
  | sentOk
  | writeFailed
  | sendError
deriving DecidableEq, Repr

/-- Result of `_send_message`: the state afterwards, which branch ran,
and whether a write to the child's stdin was attempted. -/
structure SendOutcome where
  state : AppState
  result : SendResult
  wroteAttempt : Bool
deriving DecidableEq, Repr

/-- `PluginDebuggerApp._send_message`: refuse when `plugin_process` is
`None`; refuse when the status is in the guard list; otherwise attempt
the write.  On success record the message, update `last_sent_message`
and refresh the status display; on a broken stream set status
`Disconnected` and refresh the display; on any other exception only
log. -/
def PluginDebuggerApp.sendMessage (s : AppState) (m : Message) (w : WriteOutcome)
    (now : ℚ) : SendOutcome :=
  if s.plugin_process = false then
    ⟨s, SendResult.noProcess, false⟩
  else if s.plugin_status ∈ sendGuardStates then
    ⟨s, SendResult.sessionInactive, false⟩
  else
    match w with
    | WriteOutcome.ok =>
      let h1 := s.message_history.add_sent_message m now
      let s1 := { s with message_history := h1, last_sent_message := some m }
      ⟨(PluginDebuggerApp.updateStatusDisplay s1).1, SendResult.sentOk, true⟩
    | WriteOutcome.brokenStream =>
      let s1 := { s with plugin_status := PluginStatus.Disconnected }
      ⟨(PluginDebuggerApp.updateStatusDisplay s1).1, SendResult.writeFailed, true⟩
    | WriteOutcome.otherError =>
      ⟨s, SendResult.sendError, true⟩

/-- `PluginDebuggerApp._handle_received_message`: record the message,
update `last_received_message`, refresh displays (status refresh
allocates an id). -/
def PluginDebuggerApp.handleReceivedMessage (s : AppState) (m : Message) (now : ℚ) :
    AppState :=
  let h1 := s.message_history.add_received_message m now
  let s1 := { s with message_history := h1, last_received_message := some m }
  (PluginDebuggerApp.updateStatusDisplay s1).1

/-- `PluginDebuggerApp.action_search` after the dialog returned query
`q`: build `{id: get_next_request_id(), method: "search", params: q}`
and send it. -/
def PluginDebuggerApp.actionSearch (s : AppState) (q : String) (w : WriteOutcome)
    (now : ℚ) : SendOutcome :=
  let (rid, h1) := s.message_history.get_next_request_id
  let m : Message := { id := some rid, method := some "search", params := some q }
  PluginDebuggerApp.sendMessage { s with message_history := h1 } m w now

/-- Result of `action_repeat_last`: either the early return with its
warning (state untouched), or the outcome of the inner `_send_message`. -/
inductive RepeatOutcome where
  | warnedNoLast (state : AppState)
  | repeated (o : SendOutcome)
deriving DecidableEq, Repr

/-- Python truthiness of a message document: the empty dict `{}` is
falsy, a document with at least one key is truthy. -/
def Message.truthy (m : Message) : Bool :=
  m.id.isSome || m.method.isSome || m.params.isSome || !m.rest.isEmpty

/-- `PluginDebuggerApp.action_repeat_last`: the guard
`if not self.last_sent_message` (line 724) warns and returns both when
nothing was ever sent (`None`) and when the last sent document is the
falsy empty dict; otherwise copy `last_sent_message`, replace its `id`
with a fresh allocation when it has one, and send the copy. -/
def PluginDebuggerApp.actionRepeatLast (s : AppState) (w : WriteOutcome) (now : ℚ) :
    RepeatOutcome :=
  match s.last_sent_message with
  | none => RepeatOutcome.warnedNoLast s
  | some m0 =>
    if m0.truthy = false then RepeatOutcome.warnedNoLast s
    else
      match m0.id with
      | some _ =>
        let (rid, h1) := s.message_history.get_next_request_id
        let m := { m0 with id := some rid }
        RepeatOutcome.repeated
          (PluginDebuggerApp.sendMessage { s with message_history := h1 } m w now)
      | none =>
        RepeatOutcome.repeated (PluginDebuggerApp.sendMessage s m0 w now)

/-- The id carried by the message a repeat actually sent (read back from
`last_sent_message`, which `_send_message` sets on success). -/
def RepeatOutcome.sentId : RepeatOutcome → Option Int
  | RepeatOutcome.repeated o => o.state.last_sent_message.bind Message.id
  | RepeatOutcome.warnedNoLast _ => none

/-- `PluginDebuggerApp.action_clear_history`: clear the log widget
(display only) and `self.message_history.messages.clear()`. -/
def PluginDebuggerApp.actionClearHistory (s : AppState) : AppState :=
  { s with message_history := { s.message_history with messages := [] } }

/-- One event delivered by `plugin_process.stdout.receive(8192)` in the
read loop: a chunk of bytes (decoded to text), an `EndOfStream`
exception, or a `BrokenResourceError` exception. -/
inductive ChunkEvent where
  | data (s : String)
  | eos
  | brokenRes
deriving DecidableEq, Repr

/-- Python `str.strip()`: remove whitespace from both ends. -/
def pyStrip (s : String) : String :=
  String.mk (((s.data.dropWhile Char.isWhitespace).reverse.dropWhile
    Char.isWhitespace).reverse)

/-- The iteration of `PluginDebuggerApp._read_plugin_output` over
successive receive outcomes.  An empty chunk sets status `Disconnected`,
refreshes the display and stops; a non-empty chunk is stripped and, when
still non-empty, fed *as one unit* to the decoder: success forwards the
message to `_handle_received_message`, failure logs a decode error and
continues.  `EndOfStream` stops with `Disconnected`, `BrokenResourceError`
stops with `Terminated` (each refreshing the display).  Returns the
final state, the forwarded messages in order, and the number of decode
errors logged.  The decoder argument models `json.loads`. -/
def PluginDebuggerApp.readLoop (decode : String → Option Message) (now : ℚ) :
    AppState → List ChunkEvent → AppState × List Message × Nat
  | s, [] => (s, [], 0)
  | s, ChunkEvent.data str :: rest =>
    if str = "" then
      ((PluginDebuggerApp.updateStatusDisplay
          { s with plugin_status := PluginStatus.Disconnected }).1, [], 0)
    else
      let t := pyStrip str
      if t = "" then PluginDebuggerApp.readLoop decode now s rest
      else
        match decode t with
        | some m =>
          let s1 := PluginDebuggerApp.handleReceivedMessage s m now
          let (s2, ms, ne) := PluginDebuggerApp.readLoop decode now s1 rest
          (s2, m :: ms, ne)
        | none =>
          let (s2, ms, ne) := PluginDebuggerApp.readLoop decode now s rest
          (s2, ms, ne + 1)
  | s, ChunkEvent.eos :: _ =>
    ((PluginDebuggerApp.updateStatusDisplay
        { s with plugin_status := PluginStatus.Disconnected }).1, [], 0)
  | s, ChunkEvent.brokenRes :: _ =>
    ((PluginDebuggerApp.updateStatusDisplay
        { s with plugin_status := PluginStatus.Terminated }).1, [], 0)

/-- `PluginDebuggerApp._read_plugin_output`: return immediately when
`plugin_process` is `None` (line 454), otherwise run the read loop. -/
def PluginDebuggerApp.readPluginOutput (decode : String → Option Message) (now : ℚ)
    (s : AppState) (events : List ChunkEvent) : AppState × List Message × Nat :=
  if s.plugin_process = false then (s, [], 0)
  else PluginDebuggerApp.readLoop decode now s events

/-- The sequence of values returned by `n` successive
`get_next_request_id()` calls, threading the store. -/
def allocSeq (h : MessageHistory) : Nat → List Int
  | 0 => []
  | n + 1 =>
    (h.get_next_request_id).1 :: allocSeq (h.get_next_request_id).2 n

/-- A session state whose plugin just started: status `Running`, live
process handle, fresh store. -/
def sRun : AppState :=
  { plugin_status := PluginStatus.Running
    plugin_process := true
    message_history := MessageHistory.init
    last_sent_message := none
    last_received_message := none }

lemma allocSeq_eq (n : Nat) : ∀ h : MessageHistory,
    allocSeq h n = (List.range n).map (fun k : Nat => h.next_request_id + (k : Int)) := by
  induction n with
  | zero => intro h; simp [allocSeq]
  | succ n ih =>
    intro h
    rw [List.range_succ_eq_map]
    simp only [allocSeq, MessageHistory.get_next_request_id, List.map_cons,
      List.map_map, ih]
    congr 1
    · omega
    · apply List.map_congr_left
      intro k _
      simp only [Function.comp_apply]
      omega

/-- C3: on a fresh session, successive `get_next_request_id()` calls
return exactly `1, 2, 3, ...`: strictly increasing, starting at 1, no
value repeated. -/
theorem allocSeq_init_exact (n : Nat) :
    allocSeq MessageHistory.init n = (List.range n).map (fun k : Nat => (k : Int) + 1) ∧
    (allocSeq MessageHistory.init n).Pairwise (fun a b => a < b) := by
  have he : allocSeq MessageHistory.init n
      = (List.range n).map (fun k : Nat => (k : Int) + 1) := by
    rw [allocSeq_eq]
    apply List.map_congr_left
    intro k _
    simp [MessageHistory.init]
    omega
  refine ⟨he, ?_⟩
  rw [he, List.pairwise_map]
  refine (List.pairwise_lt_range n).imp ?_
  intro a b hab
  omega

/-- C5: `action_clear_history` empties the history list and leaves the
pending-request table untouched: `has_pending_requests` and
`get_pending_request_ids` answer as before. -/
theorem clear_history_frame (s : AppState) :
    (PluginDebuggerApp.actionClearHistory s).message_history.messages = [] ∧
    (PluginDebuggerApp.actionClearHistory s).message_history.has_pending_requests
      = s.message_history.has_pending_requests ∧
    (PluginDebuggerApp.actionClearHistory s).message_history.get_pending_request_ids
      = s.message_history.get_pending_request_ids :=
  ⟨rfl, rfl, rfl⟩

/-- C10: `action_repeat_last` before anything was sent is a reported
no-op: it returns through the warning branch with the state (history,
pending table, counter, lifecycle status) entirely unchanged and no
write attempted. -/
theorem repeat_last_none_noop (s : AppState) (w : WriteOutcome) (t : ℚ)
    (h : s.last_sent_message = none) :
    PluginDebuggerApp.actionRepeatLast s w t = RepeatOutcome.warnedNoLast s := by
  unfold PluginDebuggerApp.actionRepeatLast
  rw [h]

/-- Witness for C10 at a concrete fresh session. -/
theorem repeat_last_none_noop_witness :
    sRun.last_sent_message = none ∧
    PluginDebuggerApp.actionRepeatLast sRun WriteOutcome.ok 0
      = RepeatOutcome.warnedNoLast sRun :=
  ⟨rfl, repeat_last_none_noop sRun WriteOutcome.ok 0 rfl⟩

/-- The session state reached by `action_quit_plugin` while a process
handle is still held: status `Stopped`, `plugin_process` not `None`. -/
def sStoppedLive : AppState :=
  { sRun with plugin_status := PluginStatus.Stopped }

/-- How `_send_message` unfolds in a running session when the write
succeeds: the message is appended as a `sent` entry, a pending entry is
recorded when it has an id, `last_sent_message` is set, and the counter
advances twice (once implicitly by the status-display refresh). -/
lemma sendMessage_ok_running (s : AppState) (m : Message) (now : ℚ)
    (hp : s.plugin_process = true) (hr : s.plugin_status = PluginStatus.Running) :
    PluginDebuggerApp.sendMessage s m WriteOutcome.ok now =
      ⟨{ s with
          message_history :=
            { messages := s.message_history.messages ++ [⟨MsgDir.sent, m, now, none⟩]
              pending_requests :=
                match m.id with
                | some i => dictSet s.message_history.pending_requests i now
                | none => s.message_history.pending_requests
              next_request_id := s.message_history.next_request_id + 1 }
          last_sent_message := some m },
        SendResult.sentOk, true⟩ := by
  cases s with
  | mk st pr hist ls lr =>
    simp only at hp hr
    subst hp hr
    simp [PluginDebuggerApp.sendMessage, PluginDebuggerApp.updateStatusDisplay,
      MessageHistory.add_sent_message, MessageHistory.get_next_request_id,
      sendGuardStates]

/-- How `action_search` unfolds in a running session when the write
succeeds: the sent request carries the old counter value as its id and
the counter ends two higher (one allocation for the id, one by the
status-display refresh inside `_send_message`). -/
lemma actionSearch_ok (s : AppState) (q : String) (now : ℚ)
    (hp : s.plugin_process = true) (hr : s.plugin_status = PluginStatus.Running) :
    PluginDebuggerApp.actionSearch s q WriteOutcome.ok now =
      ⟨{ s with
          message_history :=
            { messages := s.message_history.messages ++
                [⟨MsgDir.sent,
                  { id := some s.message_history.next_request_id,
                    method := some "search", params := some q }, now, none⟩]
              pending_requests :=
                dictSet s.message_history.pending_requests
                  s.message_history.next_request_id now
              next_request_id := s.message_history.next_request_id + 2 }
          last_sent_message :=
            some { id := some s.message_history.next_request_id,
                   method := some "search", params := some q } },
        SendResult.sentOk, true⟩ := by
  cases s with
  | mk st pr hist ls lr =>
    simp only at hp hr
    subst hp hr
    simp only [PluginDebuggerApp.actionSearch, MessageHistory.get_next_request_id]
    rw [sendMessage_ok_running _ _ _ rfl rfl]
    simp
    omega

/-- C1 (amended): `_send_message` in any of the four guard states
`Disconnected, Terminated, Crashed, Failed` attempts no write, leaves
the whole session state (store and pending table included) unchanged,
and takes the inactive-session branch — unless `plugin_process` is
`None`, in which case the earlier no-process branch answers instead. -/
theorem send_inactive_no_write (s : AppState) (m : Message) (w : WriteOutcome) (now : ℚ)
    (hst : s.plugin_status ∈ sendGuardStates) :
    (PluginDebuggerApp.sendMessage s m w now).wroteAttempt = false ∧
    (PluginDebuggerApp.sendMessage s m w now).state = s ∧
    (PluginDebuggerApp.sendMessage s m w now).result
      = (if s.plugin_process then SendResult.sessionInactive else SendResult.noProcess) := by
  cases hb : s.plugin_process
  · simp [PluginDebuggerApp.sendMessage, hb]
  · simp [PluginDebuggerApp.sendMessage, hb, hst]

/-- Witness for C1 (amended) in the `Disconnected` state. -/
theorem send_inactive_no_write_witness :
    ({ sRun with plugin_status := PluginStatus.Disconnected } : AppState).plugin_status
        ∈ sendGuardStates ∧
    ((PluginDebuggerApp.sendMessage { sRun with plugin_status := PluginStatus.Disconnected }
          { method := some "cancel" } WriteOutcome.ok 0).wroteAttempt = false ∧
      (PluginDebuggerApp.sendMessage { sRun with plugin_status := PluginStatus.Disconnected }
          { method := some "cancel" } WriteOutcome.ok 0).state
        = { sRun with plugin_status := PluginStatus.Disconnected } ∧
      (PluginDebuggerApp.sendMessage { sRun with plugin_status := PluginStatus.Disconnected }
          { method := some "cancel" } WriteOutcome.ok 0).result
        = (if ({ sRun with plugin_status := PluginStatus.Disconnected } : AppState).plugin_process
            then SendResult.sessionInactive else SendResult.noProcess)) :=
  ⟨by decide, send_inactive_no_write _ _ _ _ (by decide)⟩

/-- C1 (counterexample): in state `Stopped` with a live process handle,
the guard at line 525 does not fire: the write is attempted, the branch
taken is not the inactive-session one, and on write success the message
is recorded in the store — contradicting the claim for `Stopped`. -/
theorem send_stopped_attempts_write :
    sStoppedLive.plugin_status = PluginStatus.Stopped ∧
    sStoppedLive.plugin_process = true ∧
    (PluginDebuggerApp.sendMessage sStoppedLive { method := some "quit" }
        WriteOutcome.ok 0).wroteAttempt = true ∧
    (PluginDebuggerApp.sendMessage sStoppedLive { method := some "quit" }
        WriteOutcome.ok 0).result ≠ SendResult.sessionInactive ∧
    (PluginDebuggerApp.sendMessage sStoppedLive { method := some "quit" }
        WriteOutcome.ok 0).state.message_history.messages
      ≠ sStoppedLive.message_history.messages := by decide

/-- C7: a broken-stream write failure in a running session leaves the
history list, the pending-request table and `last_sent_message` exactly
as they were (nothing is recorded for the message that never left), and
moves the lifecycle state to `Disconnected` through the write-failed
branch. -/
theorem send_broken_stream_frame (s : AppState) (m : Message) (now : ℚ)
    (hp : s.plugin_process = true) (hr : s.plugin_status = PluginStatus.Running) :
    (PluginDebuggerApp.sendMessage s m WriteOutcome.brokenStream now).state.message_history.messages
      = s.message_history.messages ∧
    (PluginDebuggerApp.sendMessage s m WriteOutcome.brokenStream now).state.message_history.pending_requests
      = s.message_history.pending_requests ∧
    (PluginDebuggerApp.sendMessage s m WriteOutcome.brokenStream now).state.last_sent_message
      = s.last_sent_message ∧
    (PluginDebuggerApp.sendMessage s m WriteOutcome.brokenStream now).state.plugin_status
      = PluginStatus.Disconnected ∧
    (PluginDebuggerApp.sendMessage s m WriteOutcome.brokenStream now).result
      = SendResult.writeFailed := by
  cases s with
  | mk st pr hist ls lr =>
    simp only at hp hr
    subst hp hr
    simp [PluginDebuggerApp.sendMessage, PluginDebuggerApp.updateStatusDisplay,
      MessageHistory.get_next_request_id, sendGuardStates]

/-- Witness for C7 at a concrete running session. -/
theorem send_broken_stream_frame_witness :
    sRun.plugin_process = true ∧ sRun.plugin_status = PluginStatus.Running ∧
    ((PluginDebuggerApp.sendMessage sRun { id := some 1 } WriteOutcome.brokenStream
          0).state.message_history.messages = sRun.message_history.messages ∧
      (PluginDebuggerApp.sendMessage sRun { id := some 1 } WriteOutcome.brokenStream
          0).state.message_history.pending_requests
        = sRun.message_history.pending_requests ∧
      (PluginDebuggerApp.sendMessage sRun { id := some 1 } WriteOutcome.brokenStream
          0).state.last_sent_message = sRun.last_sent_message ∧
      (PluginDebuggerApp.sendMessage sRun { id := some 1 } WriteOutcome.brokenStream
          0).state.plugin_status = PluginStatus.Disconnected ∧
      (PluginDebuggerApp.sendMessage sRun { id := some 1 } WriteOutcome.brokenStream
          0).result = SendResult.writeFailed) :=
  ⟨rfl, rfl, send_broken_stream_frame sRun { id := some 1 } 0 rfl rfl⟩

/-- C9: every status-display refresh allocates a request id —
`_update_status_display` renders the `Next Request ID` label via the
allocating `get_next_request_id()`, so the counter ends one higher and
the label shows the pre-increment value; consequently two consecutive
successful `action_search` sends carry ids `n` and `n + 2` (the refresh
inside `_send_message` consumed `n + 1`), which are not consecutive
integers. -/
theorem status_display_allocates (s : AppState) (q1 q2 : String) (t1 t2 : ℚ)
    (hp : s.plugin_process = true) (hr : s.plugin_status = PluginStatus.Running) :
    (PluginDebuggerApp.updateStatusDisplay s).1.message_history.next_request_id
      = s.message_history.next_request_id + 1 ∧
    (PluginDebuggerApp.updateStatusDisplay s).2 = s.message_history.next_request_id ∧
    (PluginDebuggerApp.actionSearch s q1 WriteOutcome.ok t1).state.last_sent_message.bind
        Message.id = some s.message_history.next_request_id ∧
    (PluginDebuggerApp.actionSearch
        (PluginDebuggerApp.actionSearch s q1 WriteOutcome.ok t1).state q2
        WriteOutcome.ok t2).state.last_sent_message.bind Message.id
      = some (s.message_history.next_request_id + 2) ∧
    s.message_history.next_request_id + 2 ≠ s.message_history.next_request_id + 1 := by
  have h1 := actionSearch_ok s q1 t1 hp hr
  refine ⟨rfl, rfl, ?_, ?_, by omega⟩
  · rw [h1]
    rfl
  · set s1 := (PluginDebuggerApp.actionSearch s q1 WriteOutcome.ok t1).state with hs1
    have hp2 : s1.plugin_process = true := by rw [hs1, h1]; exact hp
    have hr2 : s1.plugin_status = PluginStatus.Running := by rw [hs1, h1]; exact hr
    have hn : s1.message_history.next_request_id
        = s.message_history.next_request_id + 2 := by rw [hs1, h1]
    rw [actionSearch_ok s1 q2 t2 hp2 hr2]
    simp [hn]

/-- Witness for C9 at a concrete running session. -/
theorem status_display_allocates_witness :
    sRun.plugin_process = true ∧ sRun.plugin_status = PluginStatus.Running ∧
    ((PluginDebuggerApp.updateStatusDisplay sRun).1.message_history.next_request_id
        = sRun.message_history.next_request_id + 1 ∧
      (PluginDebuggerApp.updateStatusDisplay sRun).2
        = sRun.message_history.next_request_id ∧
      (PluginDebuggerApp.actionSearch sRun "alpha" WriteOutcome.ok 0).state.last_sent_message.bind
          Message.id = some sRun.message_history.next_request_id ∧
      (PluginDebuggerApp.actionSearch
          (PluginDebuggerApp.actionSearch sRun "alpha" WriteOutcome.ok 0).state "beta"
          WriteOutcome.ok 1).state.last_sent_message.bind Message.id
        = some (sRun.message_history.next_request_id + 2) ∧
      sRun.message_history.next_request_id + 2 ≠ sRun.message_history.next_request_id + 1) :=
  ⟨rfl, rfl, status_display_allocates sRun "alpha" "beta" 0 1 rfl rfl⟩


lemma find_map_overwrite (l : List (Int × ℚ)) (k i : Int) (v : ℚ) (h : i ≠ k) :
    (l.map (fun p => if p.1 = k then (k, v) else p)).find? (fun p => p.1 = i)
      = l.find? (fun p => p.1 = i) := by
  induction l with
  | nil => rfl
  | cons p l ih =>
    by_cases hpk : p.1 = k
    · simp only [List.map_cons, if_pos hpk, List.find?_cons]
      have h1 : (decide (k = i)) = false := by simp [Ne.symm h]
      have h2 : (decide (p.1 = i)) = false := by simp [hpk, Ne.symm h]
      rw [h1, h2, ih]
    · simp only [List.map_cons, if_neg hpk, List.find?_cons]
      cases hpi : (decide (p.1 = i)) with
      | true => rfl
      | false => rw [ih]

lemma find_append_single (l : List (Int × ℚ)) (k i : Int) (v : ℚ) (h : i ≠ k) :
    (l ++ [(k, v)]).find? (fun p => p.1 = i) = l.find? (fun p => p.1 = i) := by
  induction l with
  | nil =>
    simp only [List.nil_append, List.find?_cons]
    have h1 : (decide (k = i)) = false := by simp [Ne.symm h]
    rw [h1]
  | cons p l ih =>
    simp only [List.cons_append, List.find?_cons]
    cases hpi : (decide (p.1 = i)) with
    | true => rfl
    | false => rw [ih]

/-- Overwriting or adding key `k` in a Python dict leaves lookups of any
other key unchanged. -/
lemma dictLookup_set_ne (l : List (Int × ℚ)) (k i : Int) (v : ℚ) (h : i ≠ k) :
    dictLookup (dictSet l k v) i = dictLookup l i := by
  unfold dictSet dictLookup
  by_cases hany : l.any (fun p => p.1 = k)
  · rw [if_pos hany, find_map_overwrite l k i v h]
  · rw [if_neg hany, find_append_single l k i v h]

/-- A running session whose last sent message was a custom-JSON request
with caller-chosen id 5, while the allocation counter still stands
at 1. -/
def sC4 : AppState :=
  { sRun with
      message_history := MessageHistory.init.add_sent_message
        { id := some 5, method := some "search", params := some "x" } 0
      last_sent_message :=
        some { id := some 5, method := some "search", params := some "x" } }

/-- C4 (counterexample): repeating the request with original id 5 sends
a copy carrying id 1 — the counter value — which is not strictly larger
than 5. -/
theorem repeat_last_smaller_id :
    sC4.last_sent_message.bind Message.id = some 5 ∧
    (PluginDebuggerApp.actionRepeatLast sC4 WriteOutcome.ok 0).sentId = some 1 ∧
    ¬ ((5 : Int) < 1) := by decide

/-- C4 (amended): `action_repeat_last` after a truthy notification (no
`id`, at least one key — the reachable empty document is falsy and only
warns) re-sends the identical document; after a request it re-sends a
copy whose id is the freshly allocated counter value, and whenever the
original id is below the counter (always the case for counter-allocated
ids) the fresh id is distinct from the original, so the original's
pending-table entry is left intact. -/
theorem repeat_last_fresh_id (s : AppState) (m0 : Message) (now : ℚ)
    (hp : s.plugin_process = true) (hr : s.plugin_status = PluginStatus.Running)
    (hl : s.last_sent_message = some m0) :
    (m0.truthy = false →
      PluginDebuggerApp.actionRepeatLast s WriteOutcome.ok now
        = RepeatOutcome.warnedNoLast s) ∧
    (m0.id = none → m0.truthy = true →
      ∃ o, PluginDebuggerApp.actionRepeatLast s WriteOutcome.ok now
          = RepeatOutcome.repeated o ∧
        o.state.last_sent_message = some m0) ∧
    (∀ i, m0.id = some i →
      ∃ o, PluginDebuggerApp.actionRepeatLast s WriteOutcome.ok now
          = RepeatOutcome.repeated o ∧
        o.state.last_sent_message
          = some { m0 with id := some s.message_history.next_request_id } ∧
        (i < s.message_history.next_request_id →
          s.message_history.next_request_id ≠ i ∧
          dictLookup o.state.message_history.pending_requests i
            = dictLookup s.message_history.pending_requests i)) := by
  refine ⟨?_, ?_, ?_⟩
  · intro htr
    simp [PluginDebuggerApp.actionRepeatLast, hl, htr]
  · intro h0 htr
    refine ⟨PluginDebuggerApp.sendMessage s m0 WriteOutcome.ok now, ?_, ?_⟩
    · simp [PluginDebuggerApp.actionRepeatLast, hl, h0, htr]
    · rw [sendMessage_ok_running s m0 now hp hr]
  · intro i hid
    have htr : m0.truthy = true := by simp [Message.truthy, hid]
    refine ⟨PluginDebuggerApp.sendMessage
        { s with message_history := (s.message_history.get_next_request_id).2 }
        { m0 with id := some (s.message_history.get_next_request_id).1 }
        WriteOutcome.ok now, ?_, ?_, ?_⟩
    · simp [PluginDebuggerApp.actionRepeatLast, hl, hid, htr,
        MessageHistory.get_next_request_id]
    · rw [sendMessage_ok_running
          { s with message_history := (s.message_history.get_next_request_id).2 }
          { m0 with id := some (s.message_history.get_next_request_id).1 } now hp hr]
      rfl
    · intro hlt
      refine ⟨by omega, ?_⟩
      rw [sendMessage_ok_running
          { s with message_history := (s.message_history.get_next_request_id).2 }
          { m0 with id := some (s.message_history.get_next_request_id).1 } now hp hr]
      show dictLookup (dictSet s.message_history.pending_requests
          s.message_history.next_request_id now) i
        = dictLookup s.message_history.pending_requests i
      exact dictLookup_set_ne _ _ _ _ (by omega)

/-- A running session whose last sent message was the request with the
counter-allocated id 1; the counter now stands at 2 and id 1 is still
pending. -/
def sW4 : AppState :=
  { sRun with
      message_history :=
        { messages := [], pending_requests := [(1, 0)], next_request_id := 2 }
      last_sent_message := some { id := some 1 } }

/-- Witness for C4 (amended) at a concrete running session. -/
theorem repeat_last_fresh_id_witness :
    sW4.plugin_process = true ∧ sW4.plugin_status = PluginStatus.Running ∧
    sW4.last_sent_message = some ({ id := some 1 } : Message) ∧
    ((({ id := some 1 } : Message).truthy = false →
        PluginDebuggerApp.actionRepeatLast sW4 WriteOutcome.ok 0
          = RepeatOutcome.warnedNoLast sW4) ∧
      (({ id := some 1 } : Message).id = none →
        ({ id := some 1 } : Message).truthy = true →
        ∃ o, PluginDebuggerApp.actionRepeatLast sW4 WriteOutcome.ok 0
            = RepeatOutcome.repeated o ∧
          o.state.last_sent_message = some ({ id := some 1 } : Message)) ∧
      (∀ i, ({ id := some 1 } : Message).id = some i →
        ∃ o, PluginDebuggerApp.actionRepeatLast sW4 WriteOutcome.ok 0
            = RepeatOutcome.repeated o ∧
          o.state.last_sent_message
            = some { ({ id := some 1 } : Message) with
                id := some sW4.message_history.next_request_id } ∧
          (i < sW4.message_history.next_request_id →
            sW4.message_history.next_request_id ≠ i ∧
            dictLookup o.state.message_history.pending_requests i
              = dictLookup sW4.message_history.pending_requests i))) :=
  ⟨rfl, rfl, rfl, repeat_last_fresh_id sW4 { id := some 1 } 0 rfl rfl rfl⟩

/-- The number of entries with key `i` in a pending table. -/
def countKey (l : List (Int × ℚ)) (i : Int) : Nat :=
  (l.map Prod.fst).count i

/-- `response_time` of the most recently appended history entry. -/
def lastResponseTime (h : MessageHistory) : Option ℚ :=
  (h.messages.getLast?).bind HistoryEntry.response_time

lemma any_key_iff (l : List (Int × ℚ)) (k : Int) :
    l.any (fun p => p.1 = k) = true ↔ k ∈ l.map Prod.fst := by
  simp [List.any_eq_true, List.mem_map]

lemma keys_dictSet (l : List (Int × ℚ)) (k : Int) (v : ℚ) :
    (dictSet l k v).map Prod.fst =
      if k ∈ l.map Prod.fst then l.map Prod.fst else l.map Prod.fst ++ [k] := by
  unfold dictSet
  by_cases hany : l.any (fun p => p.1 = k)
  · rw [if_pos hany, if_pos ((any_key_iff l k).1 hany)]
    rw [List.map_map]
    apply List.map_congr_left
    intro p _
    by_cases hpk : p.1 = k
    · simp [hpk]
    · simp [hpk]
  · have hk : k ∉ l.map Prod.fst := fun hmem => hany ((any_key_iff l k).2 hmem)
    rw [if_neg hany, if_neg hk, List.map_append]
    rfl

lemma dictLookup_set_self (l : List (Int × ℚ)) (k : Int) (v : ℚ) :
    dictLookup (dictSet l k v) k = some v := by
  unfold dictSet dictLookup
  by_cases hany : l.any (fun p => p.1 = k)
  · rw [if_pos hany]
    obtain ⟨p, hp, hpk⟩ := List.any_eq_true.1 hany
    have hpk' : p.1 = k := by simpa using hpk
    clear hpk
    induction l with
    | nil => cases hp
    | cons q l ih =>
      by_cases hqk : q.1 = k
      · simp [List.find?_cons, hqk]
      · rcases List.mem_cons.1 hp with hq | hq
        · exact absurd (hq ▸ hpk') (hq ▸ hqk)
        · have hrec := ih (List.any_eq_true.2 ⟨p, hq, by simpa using hpk'⟩) hq
          simpa [List.find?_cons, hqk] using hrec
  · rw [if_neg hany]
    induction l with
    | nil => simp [List.find?_cons]
    | cons q l ih =>
      have hqk : ¬ q.1 = k := by
        intro hq
        exact hany (List.any_eq_true.2 ⟨q, List.mem_cons_self q l, by simpa using hq⟩)
      have hany' : ¬ l.any (fun p => p.1 = k) = true := by
        intro ha
        obtain ⟨p, hp, hpk⟩ := List.any_eq_true.1 ha
        exact hany (List.any_eq_true.2 ⟨p, List.mem_cons_of_mem q hp, hpk⟩)
      simpa [List.cons_append, List.find?_cons, hqk] using ih hany'

lemma dictLookup_eq_none (l : List (Int × ℚ)) (k : Int)
    (h : k ∉ l.map Prod.fst) : dictLookup l k = none := by
  unfold dictLookup
  have : l.find? (fun p => p.1 = k) = none := by
    rw [List.find?_eq_none]
    intro p hp
    simp only [decide_eq_true_eq]
    intro hpk
    exact h (List.mem_map.2 ⟨p, hp, hpk⟩)
  rw [this]
  rfl


lemma keys_eraseP (l : List (Int × ℚ)) (k : Int) :
    (l.eraseP (fun p => p.1 = k)).map Prod.fst = (l.map Prod.fst).erase k := by
  induction l with
  | nil => rfl
  | cons p l ih =>
    by_cases hpk : p.1 = k
    · rw [List.eraseP_cons_of_pos (by simpa using hpk), List.map_cons, hpk,
        List.erase_cons_head]
    · rw [List.eraseP_cons_of_neg (by simpa using hpk), List.map_cons,
        List.map_cons, List.erase_cons_tail, ih]
      simpa using hpk

/-- C2: sending a request with id `i` and then receiving a reply with
the same id removes the pending entry exactly once (the table afterwards
is the previous table with the single `i` entry erased) and stamps the
received entry with `response_time = (t2 - t1) * 1000 ≥ 0`; receiving a
message whose id is not pending — a second reply with the same id
included — leaves the table unchanged and records no response time. -/
theorem record_sent_then_received (h : MessageHistory) (m m' : Message) (i : Int)
    (t1 t2 : ℚ) (hnd : (h.get_pending_request_ids).Nodup)
    (hm : m.id = some i) (hm' : m'.id = some i) (ht : t1 ≤ t2) :
    countKey (h.add_sent_message m t1).pending_requests i = 1 ∧
    ((h.add_sent_message m t1).add_received_message m' t2).pending_requests
      = (h.add_sent_message m t1).pending_requests.eraseP (fun p => p.1 = i) ∧
    countKey ((h.add_sent_message m t1).add_received_message m' t2).pending_requests i
      = 0 ∧
    lastResponseTime ((h.add_sent_message m t1).add_received_message m' t2)
      = some ((t2 - t1) * 1000) ∧
    0 ≤ (t2 - t1) * 1000 ∧
    (∀ (g : MessageHistory) (mu : Message) (t3 : ℚ),
      (∀ j, mu.id = some j → j ∉ g.get_pending_request_ids) →
      (g.add_received_message mu t3).pending_requests = g.pending_requests ∧
      lastResponseTime (g.add_received_message mu t3) = none) := by
  have hnd' : (h.pending_requests.map Prod.fst).Nodup := hnd
  have hpend1 : (h.add_sent_message m t1).pending_requests
      = dictSet h.pending_requests i t1 := by
    simp [MessageHistory.add_sent_message, hm]
  have hlook : dictLookup (h.add_sent_message m t1).pending_requests i = some t1 := by
    rw [hpend1]
    exact dictLookup_set_self _ _ _
  have hcount1 : countKey (h.add_sent_message m t1).pending_requests i = 1 := by
    rw [hpend1]
    unfold countKey
    rw [keys_dictSet]
    by_cases hk : i ∈ h.pending_requests.map Prod.fst
    · rw [if_pos hk]
      have h1 := List.nodup_iff_count_le_one.1 hnd' i
      have h2 : 0 < (h.pending_requests.map Prod.fst).count i := List.count_pos_iff.2 hk
      omega
    · rw [if_neg hk, List.count_append, List.count_eq_zero.2 hk]
      simp
  have hpend2 : ((h.add_sent_message m t1).add_received_message m' t2).pending_requests
      = (h.add_sent_message m t1).pending_requests.eraseP (fun p => p.1 = i) := by
    simp only [MessageHistory.add_received_message, hm', hlook]
    rfl
  have hrt2 : lastResponseTime ((h.add_sent_message m t1).add_received_message m' t2)
      = some ((t2 - t1) * 1000) := by
    unfold lastResponseTime
    simp only [MessageHistory.add_received_message, hm', hlook, List.getLast?_concat]
    rfl
  have hcount2 : countKey
      ((h.add_sent_message m t1).add_received_message m' t2).pending_requests i = 0 := by
    rw [hpend2]
    unfold countKey
    rw [keys_eraseP, List.count_erase_self]
    have h1 := hcount1
    unfold countKey at h1
    omega
  refine ⟨hcount1, hpend2, hcount2, hrt2, mul_nonneg (by linarith) (by norm_num), ?_⟩
  intro g mu t3 hj
  cases hmu : mu.id with
  | none =>
    constructor
    · simp [MessageHistory.add_received_message, hmu]
    · unfold lastResponseTime
      simp [MessageHistory.add_received_message, hmu, List.getLast?_concat]
  | some j =>
    have hnone : dictLookup g.pending_requests j = none :=
      dictLookup_eq_none _ _ (hj j hmu)
    constructor
    · simp [MessageHistory.add_received_message, hmu, hnone]
    · unfold lastResponseTime
      simp [MessageHistory.add_received_message, hmu, hnone, List.getLast?_concat]

/-- Witness for C2 on a fresh store with request id 7 sent at time 0 and
answered at time 1. -/
theorem record_sent_then_received_witness :
    (MessageHistory.init.get_pending_request_ids).Nodup ∧
    ({ id := some 7 } : Message).id = some 7 ∧ ((0 : ℚ) ≤ 1) ∧
    (countKey (MessageHistory.init.add_sent_message { id := some 7 } 0).pending_requests 7
        = 1 ∧
      ((MessageHistory.init.add_sent_message { id := some 7 } 0).add_received_message
          { id := some 7 } 1).pending_requests
        = (MessageHistory.init.add_sent_message
            { id := some 7 } 0).pending_requests.eraseP (fun p => p.1 = 7) ∧
      countKey ((MessageHistory.init.add_sent_message { id := some 7 } 0).add_received_message
          { id := some 7 } 1).pending_requests 7 = 0 ∧
      lastResponseTime ((MessageHistory.init.add_sent_message
          { id := some 7 } 0).add_received_message { id := some 7 } 1)
        = some (((1 : ℚ) - 0) * 1000) ∧
      (0 : ℚ) ≤ ((1 : ℚ) - 0) * 1000 ∧
      (∀ (g : MessageHistory) (mu : Message) (t3 : ℚ),
        (∀ j, mu.id = some j → j ∉ g.get_pending_request_ids) →
        (g.add_received_message mu t3).pending_requests = g.pending_requests ∧
        lastResponseTime (g.add_received_message mu t3) = none)) :=
  ⟨by decide, rfl, by norm_num,
    record_sent_then_received MessageHistory.init { id := some 7 } { id := some 7 } 7 0 1
      (by decide) rfl rfl (by norm_num)⟩

/-- Invariant of the `get_recent_searches` loop: starting from a
duplicate-free accumulator strictly below the limit, the loop returns
the accumulator extended by a duplicate-free selection of the matching
queries, in scan order, never exceeding the limit, and missing a
matching query only when the limit was reached. -/
lemma collectSearches_spec (es : List HistoryEntry) : ∀ (acc : List String) (limit : Nat),
    acc.Nodup → acc.length < limit →
    ∃ t, collectSearches es acc limit = acc ++ t ∧
      (acc ++ t).Nodup ∧
      t.Sublist (es.filterMap entryQuery) ∧
      acc.length + t.length ≤ limit ∧
      ((acc ++ t).length < limit → ∀ q ∈ es.filterMap entryQuery, q ∈ acc ++ t) := by
  induction es with
  | nil =>
    intro acc limit hnd hlt
    exact ⟨[], by simp [collectSearches], by simpa, by simp,
      by simp only [List.length_nil]; omega, by simp⟩
  | cons e es ih =>
    intro acc limit hnd hlt
    cases hq : entryQuery e with
    | none =>
      obtain ⟨t, h1, h2, h3, h4, h5⟩ := ih acc limit hnd hlt
      refine ⟨t, ?_, h2, ?_, h4, ?_⟩
      · simpa [collectSearches, hq] using h1
      · simpa [List.filterMap_cons, hq] using h3
      · intro hl q hqmem
        rw [List.filterMap_cons, hq] at hqmem
        exact h5 hl q hqmem
    | some q0 =>
      by_cases hmem : q0 ∈ acc
      · obtain ⟨t, h1, h2, h3, h4, h5⟩ := ih acc limit hnd hlt
        refine ⟨t, ?_, h2, ?_, h4, ?_⟩
        · simpa [collectSearches, hq, hmem] using h1
        · rw [List.filterMap_cons, hq]
          exact h3.cons q0
        · intro hl q hqmem
          rw [List.filterMap_cons, hq] at hqmem
          rcases List.mem_cons.1 hqmem with hq0 | hrest
          · exact hq0 ▸ List.mem_append_left t hmem
          · exact h5 hl q hrest
      · have hdisj : acc.Disjoint [q0] := by
          intro a ha hb
          simp only [List.mem_singleton] at hb
          subst hb
          exact hmem ha
        have hnd1 : (acc ++ [q0]).Nodup :=
          hnd.append (List.nodup_singleton q0) hdisj
        by_cases hfull : limit ≤ acc.length + 1
        · refine ⟨[q0], ?_, ?_, ?_, ?_, ?_⟩
          · simp [collectSearches, hq, hmem, hfull]
          · exact hnd1
          · rw [List.filterMap_cons, hq]
            exact List.Sublist.cons₂ q0 (List.nil_sublist _)
          · simp only [List.length_cons, List.length_nil]
            omega
          · intro hl
            exfalso
            simp only [List.length_append, List.length_cons, List.length_nil] at hl
            omega
        · have hlt1 : (acc ++ [q0]).length < limit := by
            simp only [List.length_append, List.length_cons, List.length_nil]
            omega
          obtain ⟨t, h1, h2, h3, h4, h5⟩ := ih (acc ++ [q0]) limit hnd1 hlt1
          refine ⟨q0 :: t, ?_, ?_, ?_, ?_, ?_⟩
          · have hst : collectSearches (e :: es) acc limit
                = collectSearches es (acc ++ [q0]) limit := by
              simp [collectSearches, hq, hmem, hfull]
            rw [hst, h1, List.append_assoc]
            rfl
          · have h2' := h2
            rw [List.append_assoc] at h2'
            exact h2'
          · rw [List.filterMap_cons, hq]
            exact List.Sublist.cons₂ q0 h3
          · simp only [List.length_append, List.length_cons] at h4 ⊢
            omega
          · intro hl q hqmem
            have hl' : ((acc ++ [q0]) ++ t).length < limit := by
              rw [List.append_assoc]
              simpa using hl
            rw [List.filterMap_cons, hq] at hqmem
            rcases List.mem_cons.1 hqmem with hq0 | hrest
            · subst hq0
              exact List.mem_append_right acc (List.mem_cons_self q t)
            · have := h5 hl' q hrest
              rw [List.append_assoc] at this
              exact this

/-- C6 (amended): with `limit ≥ 1`, `get_recent_searches` returns at
most `limit` queries, without duplicates, as a subsequence of the
`params` of `sent` `search` entries scanned newest-first — and it omits
such a query only when the limit was reached. -/
theorem recent_searches_bounded (h : MessageHistory) (limit : Nat) (hl : 1 ≤ limit) :
    (h.get_recent_searches limit).length ≤ limit ∧
    (h.get_recent_searches limit).Nodup ∧
    (h.get_recent_searches limit).Sublist (h.messages.reverse.filterMap entryQuery) ∧
    ((h.get_recent_searches limit).length < limit →
      ∀ q ∈ h.messages.reverse.filterMap entryQuery, q ∈ h.get_recent_searches limit) := by
  obtain ⟨t, h1, h2, h3, h4, h5⟩ :=
    collectSearches_spec h.messages.reverse [] limit List.nodup_nil
      (by simp only [List.length_nil]; omega)
  rw [List.nil_append] at h1 h2 h5
  unfold MessageHistory.get_recent_searches
  rw [h1]
  exact ⟨by omega, h2, h3, h5⟩

/-- A store holding exactly one sent `search` entry (query `"x"`). -/
def hC6 : MessageHistory :=
  MessageHistory.init.add_sent_message
    { method := some "search", params := some "x" } 0

/-- C6 (counterexample): with `limit = 0` the function returns one
query, because the limit test runs only after an append — so the
result length exceeds the limit. -/
theorem recent_searches_limit_zero :
    hC6.get_recent_searches 0 = ["x"] ∧
    ¬ ((hC6.get_recent_searches 0).length ≤ 0) := by decide

/-- Witness for C6 (amended) on the one-entry store with limit 1. -/
theorem recent_searches_bounded_witness :
    1 ≤ 1 ∧
    ((hC6.get_recent_searches 1).length ≤ 1 ∧
      (hC6.get_recent_searches 1).Nodup ∧
      (hC6.get_recent_searches 1).Sublist (hC6.messages.reverse.filterMap entryQuery) ∧
      ((hC6.get_recent_searches 1).length < 1 →
        ∀ q ∈ hC6.messages.reverse.filterMap entryQuery,
          q ∈ hC6.get_recent_searches 1)) :=
  ⟨by decide, recent_searches_bounded hC6 1 (by decide)⟩

/-- Models from the source: Python `json.loads` (line 471), restricted
to the strings this file evaluates it on.  `json.loads` parses exactly
one JSON document per call: it succeeds on each of the two
single-document lines below, and it raises `JSONDecodeError` ("Extra
data") on any string holding more than one document — in particular on
two newline-separated documents — so every other string here maps to
`none`. -/
def jsonLoadsC8 (s : String) : Option Message :=
  if s = "\x7b\x22id\x22: 1\x7d" then some { id := some 1 }
  else if s = "\x7b\x22id\x22: 2\x7d" then some { id := some 2 }
  else none

/-- A single `receive(8192)` chunk carrying two newline-separated JSON
documents — what arrives when the plugin writes two lines in quick
succession. -/
def chunkC8 : String := "\x7b\x22id\x22: 1\x7d\n\x7b\x22id\x22: 2\x7d"

/-- C8: the read loop consumes `receive(8192)` chunks, not lines.  On a
chunk carrying two newline-separated documents — each of which decodes
fine on its own — the loop makes a single decode attempt on the whole
chunk, which fails: no message is forwarded, one decode error is logged
(and the following empty read still disconnects the session), whereas
line-wise reading would forward both messages. -/
theorem read_loop_chunk_not_line :
    jsonLoadsC8 "\x7b\x22id\x22: 1\x7d" = some { id := some 1 } ∧
    jsonLoadsC8 "\x7b\x22id\x22: 2\x7d" = some { id := some 2 } ∧
    (PluginDebuggerApp.readPluginOutput jsonLoadsC8 0 sRun
        [ChunkEvent.data chunkC8, ChunkEvent.data ""]).2.1 = [] ∧
    (PluginDebuggerApp.readPluginOutput jsonLoadsC8 0 sRun
        [ChunkEvent.data chunkC8, ChunkEvent.data ""]).2.2 = 1 ∧
    (PluginDebuggerApp.readPluginOutput jsonLoadsC8 0 sRun
        [ChunkEvent.data chunkC8, ChunkEvent.data ""]).1.plugin_status
      = PluginStatus.Disconnected := by decide
